import Mathlib

/-!
# Verification of the youtube-history-tool history core

Shallow embedding of the history normalization and search engine of the
`youtube-history-tool` repository (files `youtube_history_tool/history.py`
and `youtube_history_tool/takeout.py`), together with theorems settling the
specification claims about it.

Modelling conventions:
* Raw JSON documents are values of the `Json` inductive type; Python `None`
  is `Json.null`.  `json.load` deduplicates object keys (last occurrence
  wins), so object field lists are treated as maps with a single binding per
  key, looked up by first match.
* Python exceptions are values: a function that can raise returns `Option`
  (`none` = an exception escaped) or `Except` with an explicit error type.
* Machine strings are `String`/`List Char`; `str` indexing/slicing is by
  code point, matching `List Char` operations.
* Character classes of Python regexes (`\s`, `\w`, `\d`, `[A-Z]`) are
  modelled over their ASCII meaning; the repository's data (URLs and
  Google Takeout timestamps) is ASCII in the relevant positions.
* `str.lower` is modelled on ASCII letters.
-/

/-- JSON documents, as produced by `json.load`. `null` doubles as Python `None`. -/
inductive Json where
  | null
  | bool (b : Bool)
  | num (n : Int)
  | str (s : String)
  | arr (items : List Json)
  | obj (fields : List (String × Json))
deriving Repr

/-- First-match lookup in a JSON object's field list (object keys are unique,
see module conventions). Models `dict.__getitem__` presence. -/
def jLookup (k : String) : List (String × Json) → Option Json
  | [] => none
  | (k', v) :: rest => if k' = k then some v else jLookup k rest

/-- Model of `dict.get(k, default)` on a JSON object's field list. -/
def jGet (kvs : List (String × Json)) (k : String) (d : Json) : Json :=
  (jLookup k kvs).getD d

/-- Python truthiness of a JSON value (`bool(x)`). -/
def Json.truthy : Json → Bool
  | .null => false
  | .bool b => b
  | .num n => n != 0
  | .str s => !s.isEmpty
  | .arr items => !items.isEmpty
  | .obj fields => !fields.isEmpty

/-- Extract a Python `str`; `none` when the value is not a string. -/
def getStr? : Json → Option String
  | .str s => some s
  | _ => none

/-! ## Python string primitives -/

/-- `str.lower` on one character (ASCII model). -/
def pyLowerChar (c : Char) : Char :=
  if 'A' ≤ c && c ≤ 'Z' then Char.ofNat (c.toNat + 32) else c

/-- `str.lower` (ASCII model). -/
def pyLower (s : String) : String := String.mk (s.toList.map pyLowerChar)

/-- Substring containment over char lists: `needle in hay` for Python `str`. -/
def listContains (needle : List Char) : List Char → Bool
  | [] => needle.isEmpty
  | c :: t => needle.isPrefixOf (c :: t) || listContains needle t

/-- Python's `needle in hay` substring test. -/
def pyInStr (needle hay : String) : Bool := listContains needle.toList hay.toList

/-- Python `\s` whitespace (ASCII model). -/
def isPySpace (c : Char) : Bool :=
  c = ' ' || c = '\t' || c = '\n' || c = '\x0d' || c = '\x0b' || c = '\x0c'

/-- Python `\w` word characters (ASCII model). -/
def isWordChar (c : Char) : Bool := c.isAlphanum || c = '_'

/-- The regex class `[a-zA-Z0-9_-]` used for YouTube video ids. -/
def isIdChar (c : Char) : Bool := c.isAlphanum || c = '_' || c = '-'

/-- Uppercase `[A-Z]`. -/
def isUpperAZ (c : Char) : Bool := 'A' ≤ c && c ≤ 'Z'

/-! ## Naive/aware datetimes

`PyDateTime` models `datetime.datetime` to second precision (the parsers in
this repository never produce sub-second fields).  `tzMin` is the UTC offset
in minutes (`none` = naive datetime).  All datetimes in a Takeout collection
are naive, so the sort comparison reads only the six calendar fields. -/

structure PyDateTime where
  year : Nat
  month : Nat
  day : Nat
  hour : Nat
  minute : Nat
  second : Nat
  tzMin : Option Int
deriving Repr, DecidableEq

/-- `datetime.min` = 0001-01-01 00:00:00 (naive). -/
def datetimeMin : PyDateTime := ⟨1, 1, 1, 0, 0, 0, none⟩

/-- Comparison of naive datetimes (lexicographic on the calendar fields),
modelling Python's `datetime.__le__` as used by `list.sort`. -/
def dtLe (a b : PyDateTime) : Bool :=
  decide (a.year < b.year ∨ (a.year = b.year ∧ (a.month < b.month ∨ (a.month = b.month ∧
    (a.day < b.day ∨ (a.day = b.day ∧ (a.hour < b.hour ∨ (a.hour = b.hour ∧
    (a.minute < b.minute ∨ (a.minute = b.minute ∧ a.second ≤ b.second))))))))))

theorem dtLe_trans (a b c : PyDateTime) (h1 : dtLe a b) (h2 : dtLe b c) : dtLe a c := by
  simp only [dtLe, decide_eq_true_eq] at *
  omega

theorem dtLe_total (a b : PyDateTime) : dtLe a b || dtLe b a := by
  simp only [dtLe, Bool.or_eq_true, decide_eq_true_eq]
  omega

theorem dtLe_refl (a : PyDateTime) : dtLe a a := by
  simp [dtLe]

/-! ## Stable sorting

`list.sort(key=..., reverse=True)` is a stable sort.  `pyStableSort le`
models it: a stable insertion sort for a total preorder `le`; an element is
inserted before the first element it satisfies `le` against, so elements
with equal keys keep their original relative order, exactly like Python's
sort. -/

/-- Insert `x` before the first element `y` of the (sorted) list with `le x y`. -/
def stableInsert (le : α → α → Bool) (x : α) : List α → List α
  | [] => [x]
  | y :: t => if le x y then x :: y :: t else y :: stableInsert le x t

/-- Stable insertion sort; models CPython's stable `list.sort` w.r.t. `le`. -/
def pyStableSort (le : α → α → Bool) : List α → List α
  | [] => []
  | x :: t => stableInsert le x (pyStableSort le t)

theorem mem_stableInsert (le : α → α → Bool) (x : α) (l : List α) (a : α) :
    a ∈ stableInsert le x l ↔ a = x ∨ a ∈ l := by
  induction l with
  | nil => simp [stableInsert]
  | cons y t ih =>
    simp only [stableInsert]
    by_cases h : le x y
    · rw [if_pos h]
      simp [List.mem_cons]
    · rw [if_neg h]
      simp [List.mem_cons, ih]
      tauto

theorem mem_pyStableSort (le : α → α → Bool) (l : List α) (a : α) :
    a ∈ pyStableSort le l ↔ a ∈ l := by
  induction l with
  | nil => simp [pyStableSort]
  | cons x t ih => simp [pyStableSort, mem_stableInsert, ih]

theorem length_stableInsert (le : α → α → Bool) (x : α) (l : List α) :
    (stableInsert le x l).length = l.length + 1 := by
  induction l with
  | nil => simp [stableInsert]
  | cons y t ih =>
    simp only [stableInsert]
    by_cases h : le x y <;> simp [h, ih]

theorem length_pyStableSort (le : α → α → Bool) (l : List α) :
    (pyStableSort le l).length = l.length := by
  induction l with
  | nil => rfl
  | cons x t ih => simp [pyStableSort, length_stableInsert, ih]

theorem pairwise_stableInsert (le : α → α → Bool)
    (htrans : ∀ a b c, le a b → le b c → le a c)
    (htot : ∀ a b, le a b || le b a) (x : α) (l : List α)
    (h : l.Pairwise (le · ·)) : (stableInsert le x l).Pairwise (le · ·) := by
  induction l with
  | nil => simp [stableInsert]
  | cons y t ih =>
    simp only [stableInsert]
    rcases List.pairwise_cons.mp h with ⟨hy, ht⟩
    by_cases hxy : le x y
    · rw [if_pos hxy]
      refine List.pairwise_cons.mpr ⟨?_, h⟩
      intro b hb
      rcases List.mem_cons.mp hb with rfl | hbt
      · exact hxy
      · exact htrans _ _ _ hxy (hy b hbt)
    · have hyx : le y x := by
        rcases Bool.or_eq_true _ _ |>.mp (htot x y) with h1 | h1
        · exact absurd h1 hxy
        · exact h1
      rw [if_neg hxy]
      refine List.pairwise_cons.mpr ⟨?_, ih ht⟩
      intro b hb
      rcases (mem_stableInsert le x t b).mp hb with rfl | hbt
      · exact hyx
      · exact hy b hbt

theorem pairwise_pyStableSort (le : α → α → Bool)
    (htrans : ∀ a b c, le a b → le b c → le a c)
    (htot : ∀ a b, le a b || le b a) (l : List α) :
    (pyStableSort le l).Pairwise (le · ·) := by
  induction l with
  | nil => simp [pyStableSort]
  | cons x t ih => exact pairwise_stableInsert le htrans htot x _ ih

/-! ## Timestamp parsing

Models of the two `_parse_timestamp` methods.

`datetime.strptime` compiles the format to a regex, matched against the
whole input, with `re.IGNORECASE`; whitespace in the format matches `\s+`;
`%d`/`%m`/`%I`/`%H`/`%M`/`%S` match one or two digits within their value
range, `%Y` matches exactly four digits, `%b` a month abbreviation, `%p`
AM/PM; the matched fields must then form a valid calendar date
(`datetime(...)` raises otherwise, which `strptime` propagates and the
caller catches).  Each format model below returns `none` exactly when
`strptime` raises `ValueError` on that format. -/

/-- Numeric value of a digit run. -/
def digitsVal (ds : List Char) : Nat := ds.foldl (fun n c => n * 10 + (c.toNat - 48)) 0

/-- A run of 1–`maxLen` digits whose value lies in `[lo, hi]` (the run is
maximal, which is equivalent to the strptime regex here because every
numeric directive is followed by a non-digit or end of input). -/
def parseNumRun (maxLen lo hi : Nat) (l : List Char) : Option (Nat × List Char) :=
  let ds := l.takeWhile Char.isDigit
  if ds.length = 0 ∨ maxLen < ds.length then none
  else
    let v := digitsVal ds
    if lo ≤ v ∧ v ≤ hi then some (v, l.dropWhile Char.isDigit) else none

/-- `%Y`: exactly four digits. -/
def parseYear4 (l : List Char) : Option (Nat × List Char) :=
  let ds := l.takeWhile Char.isDigit
  if ds.length = 4 then some (digitsVal ds, l.dropWhile Char.isDigit) else none

/-- Exactly two digits with a value in `[lo, hi]` (used by `fromisoformat`). -/
def parse2Digits (lo hi : Nat) (l : List Char) : Option (Nat × List Char) :=
  match l with
  | a :: b :: rest =>
    if a.isDigit && b.isDigit then
      let v := (a.toNat - 48) * 10 + (b.toNat - 48)
      if lo ≤ v ∧ v ≤ hi then some (v, rest) else none
    else none
  | _ => none

/-- `%b`: a C-locale month abbreviation, case-insensitively. -/
def monthNum (key : List Char) : Option Nat :=
  if key = "jan".toList then some 1
  else if key = "feb".toList then some 2
  else if key = "mar".toList then some 3
  else if key = "apr".toList then some 4
  else if key = "may".toList then some 5
  else if key = "jun".toList then some 6
  else if key = "jul".toList then some 7
  else if key = "aug".toList then some 8
  else if key = "sep".toList then some 9
  else if key = "oct".toList then some 10
  else if key = "nov".toList then some 11
  else if key = "dec".toList then some 12
  else none

def parseMonthAbbrev (l : List Char) : Option (Nat × List Char) :=
  match l with
  | c1 :: c2 :: c3 :: rest =>
    match monthNum [pyLowerChar c1, pyLowerChar c2, pyLowerChar c3] with
    | some m => some (m, rest)
    | none => none
  | _ => none

/-- A literal format character (strptime regexes are case-insensitive). -/
def expectCI (c : Char) (l : List Char) : Option (List Char) :=
  match l with
  | x :: rest => if pyLowerChar x = pyLowerChar c then some rest else none
  | [] => none

/-- Whitespace in a strptime format: `\s+`. -/
def parseWs1 (l : List Char) : Option (List Char) :=
  match l with
  | c :: rest => if isPySpace c then some (rest.dropWhile isPySpace) else none
  | [] => none

/-- `%p`: AM/PM, case-insensitively; `true` = PM. -/
def parseAmPm (l : List Char) : Option (Bool × List Char) :=
  match l with
  | c1 :: c2 :: rest =>
    if pyLowerChar c2 = 'm' then
      if pyLowerChar c1 = 'a' then some (false, rest)
      else if pyLowerChar c1 = 'p' then some (true, rest)
      else none
    else none
  | _ => none

def isLeapYear (y : Nat) : Bool := (y % 4 = 0 && y % 100 ≠ 0) || y % 400 = 0

def daysInMonth (y m : Nat) : Nat :=
  if m = 2 then (if isLeapYear y then 29 else 28)
  else if m = 4 ∨ m = 6 ∨ m = 9 ∨ m = 11 then 30
  else 31

/-- `datetime(...)` construction: validates ranges (MINYEAR/MAXYEAR, the
calendar) and raises (here: `none`) on invalid components. -/
def mkDateTime (y mo d hh mi ss : Nat) (tz : Option Int) : Option PyDateTime :=
  if 1 ≤ y ∧ y ≤ 9999 ∧ 1 ≤ mo ∧ mo ≤ 12 ∧ 1 ≤ d ∧ d ≤ daysInMonth y mo
     ∧ hh ≤ 23 ∧ mi ≤ 59 ∧ ss ≤ 59
  then some ⟨y, mo, d, hh, mi, ss, tz⟩ else none

/-- `datetime.strptime(s, "%b %d, %Y, %I:%M:%S %p")`. -/
def strptimeLongAmPm (l : List Char) : Option PyDateTime := do
  let (mo, r1) ← parseMonthAbbrev l
  let r2 ← parseWs1 r1
  let (d, r3) ← parseNumRun 2 1 31 r2
  let r4 ← expectCI ',' r3
  let r5 ← parseWs1 r4
  let (y, r6) ← parseYear4 r5
  let r7 ← expectCI ',' r6
  let r8 ← parseWs1 r7
  let (h12, r9) ← parseNumRun 2 1 12 r8
  let r10 ← expectCI ':' r9
  let (mi, r11) ← parseNumRun 2 0 59 r10
  let r12 ← expectCI ':' r11
  let (ss, r13) ← parseNumRun 2 0 59 r12
  let r14 ← parseWs1 r13
  let (pm, r15) ← parseAmPm r14
  if r15 = [] then
    let hh := if pm then (if h12 = 12 then 12 else h12 + 12)
              else (if h12 = 12 then 0 else h12)
    mkDateTime y mo d hh mi ss none
  else none

/-- `datetime.strptime(s, "%b %d, %Y, %H:%M:%S")`. -/
def strptimeLong24 (l : List Char) : Option PyDateTime := do
  let (mo, r1) ← parseMonthAbbrev l
  let r2 ← parseWs1 r1
  let (d, r3) ← parseNumRun 2 1 31 r2
  let r4 ← expectCI ',' r3
  let r5 ← parseWs1 r4
  let (y, r6) ← parseYear4 r5
  let r7 ← expectCI ',' r6
  let r8 ← parseWs1 r7
  let (hh, r9) ← parseNumRun 2 0 23 r8
  let r10 ← expectCI ':' r9
  let (mi, r11) ← parseNumRun 2 0 59 r10
  let r12 ← expectCI ':' r11
  let (ss, r13) ← parseNumRun 2 0 59 r12
  if r13 = [] then mkDateTime y mo d hh mi ss none else none

/-- `datetime.strptime(s, "%Y-%m-%d %H:%M:%S")`. -/
def strptimeYmdSpace (l : List Char) : Option PyDateTime := do
  let (y, r1) ← parseYear4 l
  let r2 ← expectCI '-' r1
  let (mo, r3) ← parseNumRun 2 1 12 r2
  let r4 ← expectCI '-' r3
  let (d, r5) ← parseNumRun 2 1 31 r4
  let r6 ← parseWs1 r5
  let (hh, r7) ← parseNumRun 2 0 23 r6
  let r8 ← expectCI ':' r7
  let (mi, r9) ← parseNumRun 2 0 59 r8
  let r10 ← expectCI ':' r9
  let (ss, r11) ← parseNumRun 2 0 59 r10
  if r11 = [] then mkDateTime y mo d hh mi ss none else none

/-- `datetime.strptime(s, "%Y-%m-%dT%H:%M:%S")`. -/
def strptimeYmdT (l : List Char) : Option PyDateTime := do
  let (y, r1) ← parseYear4 l
  let r2 ← expectCI '-' r1
  let (mo, r3) ← parseNumRun 2 1 12 r2
  let r4 ← expectCI '-' r3
  let (d, r5) ← parseNumRun 2 1 31 r4
  let r6 ← expectCI 'T' r5
  let (hh, r7) ← parseNumRun 2 0 23 r6
  let r8 ← expectCI ':' r7
  let (mi, r9) ← parseNumRun 2 0 59 r8
  let r10 ← expectCI ':' r9
  let (ss, r11) ← parseNumRun 2 0 59 r10
  if r11 = [] then mkDateTime y mo d hh mi ss none else none

/-- `datetime.strptime(s, "%b %d, %Y")` (the date-only fallback). -/
def strptimeDateOnly (l : List Char) : Option PyDateTime := do
  let (mo, r1) ← parseMonthAbbrev l
  let r2 ← parseWs1 r1
  let (d, r3) ← parseNumRun 2 1 31 r2
  let r4 ← expectCI ',' r3
  let r5 ← parseWs1 r4
  let (y, r6) ← parseYear4 r5
  if r6 = [] then mkDateTime y mo d 0 0 0 none else none

/-- `re.sub(r'\s+[A-Z]{3,4}$', '', s)`: remove a trailing run of exactly 3
or 4 uppercase letters together with the whitespace run before it (the
Takeout timezone abbreviation). No other input is changed. -/
def stripTzSuffix (l : List Char) : List Char :=
  let r := l.reverse
  let ups := r.takeWhile isUpperAZ
  let rest := r.drop ups.length
  let sps := rest.takeWhile isPySpace
  if (ups.length = 3 ∨ ups.length = 4) ∧ sps.length ≠ 0 then
    (rest.drop sps.length).reverse
  else l

/-- Attempt of the fallback regex `\w{3}\s+\d{1,2},\s+\d{4}` anchored at the
head of `l`, returning the matched text. -/
def dateRegexAt (l : List Char) : Option (List Char) :=
  match l with
  | c1 :: c2 :: c3 :: rest =>
    if isWordChar c1 && isWordChar c2 && isWordChar c3 then
      let sp1 := rest.takeWhile isPySpace
      let r1 := rest.dropWhile isPySpace
      if sp1.length = 0 then none else
      let ds := r1.takeWhile Char.isDigit
      let r2 := r1.dropWhile Char.isDigit
      if ds.length = 1 ∨ ds.length = 2 then
        match r2 with
        | ',' :: r3 =>
          let sp2 := r3.takeWhile isPySpace
          let r4 := r3.dropWhile isPySpace
          if sp2.length = 0 then none else
          let ys := r4.takeWhile Char.isDigit
          if 4 ≤ ys.length then
            some ([c1, c2, c3] ++ sp1 ++ ds ++ [','] ++ sp2 ++ ys.take 4)
          else none
        | _ => none
      else none
    else none
  | _ => none

/-- `re.search` for the fallback date regex: leftmost match wins. -/
def dateSearch : List Char → Option (List Char)
  | [] => none
  | c :: t => (dateRegexAt (c :: t)).orElse fun _ => dateSearch t

/-- `TakeoutWatchHistoryItem._parse_timestamp`: strip the timezone
abbreviation, try the four strptime formats in order, then fall back to
searching for a bare date; every failure path returns `None` (all
exceptions are caught inside the method). -/
def parse_timestamp_takeout (s : String) : Option PyDateTime :=
  if s.toList.isEmpty then none
  else
    ((((strptimeLongAmPm (stripTzSuffix s.toList)).orElse fun _ =>
        strptimeLong24 (stripTzSuffix s.toList)).orElse fun _ =>
        strptimeYmdSpace (stripTzSuffix s.toList)).orElse fun _ =>
        strptimeYmdT (stripTzSuffix s.toList)).orElse fun _ =>
      (dateSearch s.toList).bind strptimeDateOnly

/-- `str.replace('Z', '+00:00')` (every occurrence). -/
def replaceZ : List Char → List Char
  | [] => []
  | c :: t =>
    if c = 'Z' then '+' :: '0' :: '0' :: ':' :: '0' :: '0' :: replaceZ t
    else c :: replaceZ t

/-- Model of `datetime.fromisoformat`, restricted to the extended-format
shapes `YYYY-MM-DD[<sep>HH:MM:SS[±HH:MM]]` (exactly two digits per field;
`<sep>` is any single character).  This covers every shape the YouTube API
produces (`publishedAt` is ISO-8601 to the second with a `Z` or numeric
offset); fractional seconds and the compressed basic format are outside the
model. -/
def fromisoformat (l : List Char) : Option PyDateTime := do
  let (y, r1) ← parseYear4 l
  let r2 ← expectCI '-' r1
  let (mo, r3) ← parse2Digits 1 12 r2
  let r4 ← expectCI '-' r3
  let (d, r5) ← parse2Digits 1 31 r4
  match r5 with
  | [] => mkDateTime y mo d 0 0 0 none
  | _sep :: r6 =>
    match parse2Digits 0 23 r6 with
    | none => none
    | some (hh, r7) => do
      let r8 ← expectCI ':' r7
      let (mi, r9) ← parse2Digits 0 59 r8
      let r10 ← expectCI ':' r9
      let (ss, r11) ← parse2Digits 0 59 r10
      match r11 with
      | [] => mkDateTime y mo d hh mi ss none
      | sgn :: r12 =>
        if sgn = '+' ∨ sgn = '-' then do
          let (oh, r13) ← parse2Digits 0 23 r12
          let r14 ← expectCI ':' r13
          let (om, r15) ← parse2Digits 0 59 r14
          if r15 = [] then
            let off : Int := (oh * 60 + om : Nat)
            mkDateTime y mo d hh mi ss (some (if sgn = '-' then -off else off))
          else none
        else none

/-- `WatchHistoryItem._parse_timestamp`: normalize `Z` to `+00:00`, then
`fromisoformat`; `ValueError`/`AttributeError` are caught and yield `None`. -/
def parse_timestamp_api (s : String) : Option PyDateTime :=
  if s.toList.isEmpty then none
  else fromisoformat (replaceZ s.toList)

/-! ## Video-id extraction (`TakeoutWatchHistoryItem._extract_video_id`) -/

/-- Match a literal char-list prefix, returning the remainder. -/
def dropLit : List Char → List Char → Option (List Char)
  | [], l => some l
  | _ :: _, [] => none
  | p :: ps, c :: cs => if p = c then dropLit ps cs else none

/-- The regex group `([a-zA-Z0-9_-]{11})`: exactly the next 11 characters,
all in the id class. -/
def take11Id (l : List Char) : Option String :=
  if (l.take 11).length = 11 ∧ (l.take 11).all isIdChar
  then some (String.mk (l.take 11)) else none

/-- One attempt of `(?:youtube\.com/watch\?v=|youtu\.be/)([a-zA-Z0-9_-]{11})`
at the head of the input (alternatives tried left to right). -/
def pat1At (l : List Char) : Option String :=
  ((dropLit "youtube.com/watch?v=".toList l).bind take11Id).orElse fun _ =>
    (dropLit "youtu.be/".toList l).bind take11Id

/-- One attempt of `youtube\.com/embed/([a-zA-Z0-9_-]{11})` at the head. -/
def pat2At (l : List Char) : Option String :=
  (dropLit "youtube.com/embed/".toList l).bind take11Id

/-- One attempt of `youtube\.com/v/([a-zA-Z0-9_-]{11})` at the head. -/
def pat3At (l : List Char) : Option String :=
  (dropLit "youtube.com/v/".toList l).bind take11Id

/-- `re.search`: try the pattern at each position, leftmost match wins. -/
def regexSearch (patAt : List Char → Option String) : List Char → Option String
  | [] => none
  | c :: t => (patAt (c :: t)).orElse fun _ => regexSearch patAt t

/-! `urlparse`/`parse_qs` model, for the query-string fallback. -/

/-- Scheme characters: ASCII letters, digits, `+`, `-`, `.`. -/
def isSchemeChar (c : Char) : Bool := c.isAlphanum || c = '+' || c = '-' || c = '.'

/-- `urlsplit(url).query` — `none` models `urlparse` raising `ValueError`
(mismatched IPv6 brackets in the netloc). Steps, as in CPython: strip a
`scheme:` prefix; if `//` follows, the netloc runs to the next `/`, `?` or
`#` and its brackets must be balanced; the fragment is everything after the
first `#` of the remainder; the query is everything after the first `?` of
what is left. -/
def urlsplitQuery (l0 : List Char) : Option (List Char) :=
  let l1 :=
    match l0.findIdx? (· = ':') with
    | some i =>
      let pre := l0.take i
      if i > 0 ∧ pre.all isSchemeChar ∧ pre.head?.any Char.isAlpha then
        l0.drop (i + 1)
      else l0
    | none => l0
  match l1 with
  | '/' :: '/' :: rest =>
    let netloc := rest.takeWhile fun c => ¬(c = '/' ∨ c = '?' ∨ c = '#')
    if (netloc.contains '[' ∧ ¬netloc.contains ']')
        ∨ (netloc.contains ']' ∧ ¬netloc.contains '[') then none
    else
      let r := rest.drop netloc.length
      let noFrag := r.takeWhile (· ≠ '#')
      some ((noFrag.dropWhile (· ≠ '?')).drop 1)
  | _ =>
    let noFrag := l1.takeWhile (· ≠ '#')
    some ((noFrag.dropWhile (· ≠ '?')).drop 1)

def hexVal (c : Char) : Option Nat :=
  if '0' ≤ c ∧ c ≤ '9' then some (c.toNat - 48)
  else if 'a' ≤ c ∧ c ≤ 'f' then some (c.toNat - 87)
  else if 'A' ≤ c ∧ c ≤ 'F' then some (c.toNat - 55)
  else none

/-- `unquote(s.replace('+', ' '))`, i.e. `urllib.parse.unquote_plus`:
`+` becomes a space and `%XY` hex escapes are decoded (single-byte model;
multi-byte UTF-8 escape sequences are outside the model; invalid escapes
are left literal). -/
def unquotePlus : List Char → List Char
  | [] => []
  | '%' :: a :: b :: t =>
    match hexVal a, hexVal b with
    | some ha, some hb => Char.ofNat (16 * ha + hb) :: unquotePlus t
    | _, _ => '%' :: unquotePlus (a :: b :: t)
  | '+' :: t => ' ' :: unquotePlus t
  | c :: t => c :: unquotePlus t

/-- Split on a separator character (`str.split(sep)` semantics). -/
def splitOnChar (sep : Char) (l : List Char) : List (List Char) :=
  match l with
  | [] => [[]]
  | c :: t =>
    let rest := splitOnChar sep t
    if c = sep then [] :: rest
    else
      match rest with
      | [] => [[c]]
      | piece :: more => (c :: piece) :: more

/-- `parse_qsl(qs)` with the default arguments: split on `&`; skip empty
pieces; skip pieces without `=`; skip pieces with an empty value
(`keep_blank_values=False`); unquote names and values. -/
def parse_qsl (qs : List Char) : List (List Char × List Char) :=
  (splitOnChar '&' qs).filterMap fun piece =>
    if piece.isEmpty then none
    else
      let name := piece.takeWhile (· ≠ '=')
      let rest := piece.dropWhile (· ≠ '=')
      match rest with
      | [] => none
      | _eq :: value =>
        if value.isEmpty then none
        else some (unquotePlus name, unquotePlus value)

/-- The query-string fallback:
`parse_qs(urlparse(url).query)['v'][0]` when a `v` parameter is present;
any exception in this block is swallowed (`except: pass`). -/
def queryFallback (l : List Char) : Option String :=
  match urlsplitQuery l with
  | none => none
  | some qs =>
    match (parse_qsl qs).find? fun p => p.1 = "v".toList with
    | some p => some (String.mk p.2)
    | none => none

/-- `TakeoutWatchHistoryItem._extract_video_id`: `None` for a falsy url,
then the three regex patterns in order, then the query-string fallback. -/
def extract_video_id (url : String) : Option String :=
  if url.toList.isEmpty then none
  else
    (((regexSearch pat1At url.toList).orElse fun _ =>
       regexSearch pat2At url.toList).orElse fun _ =>
       regexSearch pat3At url.toList).orElse fun _ =>
      queryFallback url.toList

/-! ## The Takeout adapter (`takeout.py`)

Record fields that the source can only ever populate with strings are typed
`String`; fields that the dynamic code stores unchecked (`titleUrl`, `time`,
the API's `videoId`) keep type `Json`.  Modelling assumption (documented
per constructor): snippet/subtitle *name-like* fields, when present and
truthy, are strings — as the YouTube API and Takeout schemas guarantee. -/

structure TakeoutWatchHistoryItem where
  title : String
  title_url : Json
  subtitles : Json
  time : Json
  video_id : Option String
  video_url : Json
  channel_title : String
  timestamp : Option PyDateTime
  description : String
  activity_type : String
  published_at : Json
deriving Repr

/-- Elementwise walk of `_extract_channel_name`'s loop over a `subtitles`
list: the first dict with a truthy `name` wins, a plain string element is
returned immediately (even when empty), anything else is skipped. A truthy
non-string `name` is outside the model (`none`). -/
def extractChannelFromList : List Json → Option String
  | [] => some "Unknown Channel"
  | .obj kvs :: rest =>
    (match jGet kvs "name" (.str "") with
     | .str s => if s.isEmpty then extractChannelFromList rest else some s
     | v => if v.truthy then none else extractChannelFromList rest)
  | .str s :: _ => some s
  | _ :: rest => extractChannelFromList rest

/-- `TakeoutWatchHistoryItem._extract_channel_name`.  Iterating a string
yields its characters (each a 1-character `str`, returned immediately);
iterating a dict yields its keys; iterating anything else raises
(`none`). -/
def extract_channel_name : Json → Option String
  | .arr xs => extractChannelFromList xs
  | .str s =>
    (match s.toList with
     | [] => some "Unknown Channel"
     | c :: _ => some (String.mk [c]))
  | .obj kvs =>
    (match kvs with
     | [] => some "Unknown Channel"
     | (k, _) :: _ => some k)
  | _ => none

/-- `self._extract_video_id(self.title_url)` on the raw field value: a
falsy non-string url returns `None` via `if not url`; a truthy non-string
makes `re.search` raise TypeError (outer `none`). -/
def urlFieldVideoId : Json → Option (Option String)
  | .str s => some (extract_video_id s)
  | j => if j.truthy then none else some none

/-- `self._parse_timestamp(self.time)` on the raw field value: a non-string
is either falsy (short-circuits at `if not timestamp_str`) or raises inside
the method's own try/except — either way the result is `None` and nothing
escapes. -/
def timeFieldTimestamp : Json → Option PyDateTime
  | .str s => parse_timestamp_takeout s
  | _ => none

/-- The field extraction of `TakeoutWatchHistoryItem.__init__`, given the
entry's (dict) field list; `none` models the constructor raising
(non-string `title`, truthy non-string `titleUrl`, non-iterable
`subtitles`). -/
def mkTakeoutItemFields (kvs : List (String × Json)) : Option TakeoutWatchHistoryItem :=
  -- a non-string title makes `title.startswith` raise
  match getStr? (jGet kvs "title" (.str "Unknown Title")) with
  | none => none
  | some title0 =>
    match urlFieldVideoId (jGet kvs "titleUrl" (.str "")) with
    | none => none
    | some video_id =>
      match extract_channel_name (jGet kvs "subtitles" (.arr [])) with
      | none => none
      | some channel_title =>
        some { title := if "Watched ".toList.isPrefixOf title0.toList
                        then String.mk (title0.toList.drop 8) else title0,
               title_url := jGet kvs "titleUrl" (.str ""),
               subtitles := jGet kvs "subtitles" (.arr []),
               time := jGet kvs "time" (.str ""),
               video_id := video_id,
               video_url :=
                 match video_id with
                 | some s => if s.isEmpty then jGet kvs "titleUrl" (.str "")
                             else .str ("https://www.youtube.com/watch?v=" ++ s)
                 | none => jGet kvs "titleUrl" (.str ""),
               channel_title := channel_title,
               timestamp := timeFieldTimestamp (jGet kvs "time" (.str "")),
               description := "", activity_type := "watch",
               published_at := jGet kvs "time" (.str "") }

/-- `TakeoutWatchHistoryItem.__init__`; `none` models the constructor raising. -/
def mkTakeoutItem (data : Json) : Option TakeoutWatchHistoryItem :=
  match data with
  | .obj kvs => mkTakeoutItemFields kvs
  | _ => none                  -- `.get` on a non-dict raises AttributeError

/-- The state of the Takeout file named by the path handed to
`load_watch_history`: absent, present with non-JSON contents, or present
and parsed by `json.load` into a document. -/
inductive TakeoutFile where
  | missing
  | invalidJson
  | parsed (data : Json)

/-- The caller-visible failure conditions of `load_watch_history`:
`FileNotFoundError`, `ValueError` (invalid JSON), `RuntimeError` (any
other exception escaping the entry loop, e.g. `len(data)` on a non-sized
document). -/
inductive LoadError where
  | fileNotFound
  | valueError
  | runtimeError
deriving Repr, DecidableEq

/-- One iteration of the batch loop of `TakeoutProcessor.load_watch_history`:
`some item` when the entry is retained, `none` when the iteration hits a
`skipped += 1; continue` path (missing/falsy `title` or `titleUrl`, no
`youtube.com/watch` in the url, a per-entry exception, or a falsy
`video_id`). -/
def entryStep (entry : Json) : Option TakeoutWatchHistoryItem :=
  match entry with
  | .obj kvs =>
    let t := jGet kvs "title" .null
    let u := jGet kvs "titleUrl" .null
    if ¬t.truthy ∨ ¬u.truthy then none
    else
      -- `'youtube.com/watch' not in entry.get('titleUrl', '')`: substring
      -- test on a string, equality membership on a list; on other types
      -- `in` raises TypeError and the per-entry handler skips the entry.
      -- (A dict key equal to the probe string would pass the check, but the
      -- constructor then raises on the non-string titleUrl: skipped too.)
      let watchOk : Bool :=
        match u with
        | .str s => pyInStr "youtube.com/watch" s
        | .arr xs => xs.any fun x => match x with
            | .str s => s = "youtube.com/watch"
            | _ => false
        | _ => false
      if ¬watchOk then none
      else
        match mkTakeoutItem entry with
        | none => none                 -- per-entry exception: skipped
        | some item =>
          match item.video_id with     -- `if item.video_id:` (truthiness)
          | some s => if s.isEmpty then none else some item
          | none => none
  | _ => none                          -- `entry.get` on a non-dict raises

/-- The whole batch loop: retained items in input order plus the skip
count.  Every entry goes to exactly one side. -/
def processEntries : List Json → List TakeoutWatchHistoryItem × Nat
  | [] => ([], 0)
  | e :: rest =>
    match entryStep e with
    | some item => (item :: (processEntries rest).1, (processEntries rest).2)
    | none => ((processEntries rest).1, (processEntries rest).2 + 1)

/-- `key=lambda x: x.timestamp or datetime.min` (datetimes are always
truthy, so only `None` falls back to `datetime.min`). -/
def takeoutSortKey (it : TakeoutWatchHistoryItem) : PyDateTime :=
  it.timestamp.getD datetimeMin

/-- The comparison realized by `sort(key=takeoutSortKey, reverse=True)`:
descending by key, ties keep their original order under a stable sort. -/
def takeoutSortLe (a b : TakeoutWatchHistoryItem) : Bool :=
  dtLe (takeoutSortKey b) (takeoutSortKey a)

/-- `TakeoutProcessor.load_watch_history`.  A missing path raises
`FileNotFoundError` before anything else; `json.JSONDecodeError` is
re-raised as `ValueError`; any other exception escaping the loop becomes
`RuntimeError`.  Iterating a JSON object/string document feeds its
keys/characters to the loop (each raises per-entry and is skipped);
`len(data)` on a number/bool/null document raises `TypeError`, which the
outer handler turns into `RuntimeError`. -/
def load_watch_history (file : TakeoutFile) :
    Except LoadError (List TakeoutWatchHistoryItem × Nat) :=
  match file with
  | .missing => .error .fileNotFound
  | .invalidJson => .error .valueError
  | .parsed data =>
    match data with
    | .arr entries =>
      let (items, skipped) := processEntries entries
      .ok (pyStableSort takeoutSortLe items, skipped)
    | .obj kvs =>
      let (items, skipped) := processEntries (kvs.map fun kv => .str kv.1)
      .ok (pyStableSort takeoutSortLe items, skipped)
    | .str s =>
      let (items, skipped) := processEntries (s.toList.map fun c => .str (String.mk [c]))
      .ok (pyStableSort takeoutSortLe items, skipped)
    | _ => .error .runtimeError

/-- `TakeoutProcessor.search_history` (with the collection passed
explicitly; passing `history=None` reads the same list from the cache
slot).  An empty collection returns `[]` with a warning. -/
def search_history_takeout (query : String)
    (history : List TakeoutWatchHistoryItem) : List TakeoutWatchHistoryItem :=
  if history.isEmpty then []
  else
    let ql := pyLower query
    history.filter fun item =>
      pyInStr ql (pyLower item.title) || pyInStr ql (pyLower item.channel_title)

/-! ## Export dictionaries -/

/-- Zero-padded decimal rendering. -/
def padNum (width n : Nat) : List Char :=
  let s := (toString n).toList
  List.replicate (width - s.length) '0' ++ s

/-- `datetime.isoformat()` for second-precision datetimes. -/
def PyDateTime.isoformat (d : PyDateTime) : String :=
  let base := String.mk (padNum 4 d.year ++ ['-'] ++ padNum 2 d.month ++ ['-']
    ++ padNum 2 d.day ++ ['T'] ++ padNum 2 d.hour ++ [':'] ++ padNum 2 d.minute
    ++ [':'] ++ padNum 2 d.second)
  match d.tzMin with
  | none => base
  | some off =>
    let sign := if off < 0 then "-" else "+"
    let a := off.natAbs
    base ++ sign ++ String.mk (padNum 2 (a / 60) ++ [':'] ++ padNum 2 (a % 60))

/-- The dictionary produced by `TakeoutWatchHistoryItem.to_dict`. -/
structure TakeoutExportDict where
  title : String
  channel : String
  video_id : Option String
  video_url : Json
  watched_at : Json
  timestamp : Option String
  activity_type : String
  description : String
deriving Repr

/-- `TakeoutWatchHistoryItem.to_dict` (note: no description truncation on
this adapter — its records always carry an empty description). -/
def TakeoutWatchHistoryItem.to_dict (it : TakeoutWatchHistoryItem) : TakeoutExportDict :=
  { title := it.title, channel := it.channel_title, video_id := it.video_id,
    video_url := it.video_url, watched_at := it.time,
    timestamp := it.timestamp.map PyDateTime.isoformat,
    activity_type := it.activity_type, description := it.description }

/-! ## The API adapter (`history.py`) -/

structure WatchHistoryItem where
  title : String
  published_at : Json
  channel_title : String
  description : String
  activity_type : Json
  video_id : Json
  video_url : Option String
  timestamp : Option PyDateTime
deriving Repr

/-- F-string interpolation of a scalar JSON value (container `repr`s are
outside the model; the only use below is guarded by truthiness of a value
that real payloads make a string). -/
def Json.fstrVal : Json → String
  | .str s => s
  | .num n => toString n
  | .bool b => if b then "True" else "False"
  | .null => "None"
  | .arr _ => ""
  | .obj _ => ""

/-- The `video_id` probing of `WatchHistoryItem.__init__` over
`contentDetails`: prefer `upload.videoId`, then
`playlistItem.resourceId.videoId`, else `None`.  `in` over a string is a
substring test, over a list an equality membership test; both then make the
subsequent subscript-by-string raise; `in` over non-containers raises
directly (`none` = the constructor raises). -/
def apiVideoId : Json → Option Json
  | .obj c =>
    (match jLookup "upload" c with
     | some up =>
       (match up with
        | .obj u => some (jGet u "videoId" .null)
        | _ => none)
     | none =>
       match jLookup "playlistItem" c with
       | some pl =>
         (match pl with
          | .obj p =>
            (match jGet p "resourceId" (.obj []) with
             | .obj r => some (jGet r "videoId" .null)
             | _ => none)
          | _ => none)
       | none => some .null)
  | .str s =>
    if pyInStr "upload" s then none
    else if pyInStr "playlistItem" s then none
    else some .null
  | .arr xs =>
    if xs.any fun x => match x with | .str s => s = "upload" | _ => false then none
    else if xs.any fun x => match x with | .str s => s = "playlistItem" | _ => false then none
    else some .null
  | _ => none

/-- `self._parse_timestamp(self.published_at)` on the raw field value:
non-string values are either falsy (→ `None`) or raise AttributeError at
`.replace`, which the method catches (→ `None`). -/
def publishedAtTimestamp : Json → Option PyDateTime
  | .str p => parse_timestamp_api p
  | _ => none

/-- The field extraction of `WatchHistoryItem.__init__`, given the item's
(dict) field list and its snippet's (dict) field list.  Modelling
assumption: the snippet's `title`, `channelTitle` and `description`, when
present, are strings (the API schema guarantees it; the constructor itself
would accept any value and poison later calls). -/
def mkWatchHistoryItemFields (kvs s : List (String × Json)) : Option WatchHistoryItem :=
  match getStr? (jGet s "title" (.str "Unknown Title")) with
  | none => none
  | some title =>
    match getStr? (jGet s "channelTitle" (.str "Unknown Channel")) with
    | none => none
    | some channel_title =>
      match getStr? (jGet s "description" (.str "")) with
      | none => none
      | some description =>
        match apiVideoId (jGet kvs "contentDetails" (.obj [])) with
        | none => none
        | some video_id =>
          some { title := title,
                 published_at := jGet s "publishedAt" (.str ""),
                 channel_title := channel_title,
                 description := description,
                 activity_type := jGet s "type" (.str ""),
                 video_id := video_id,
                 video_url :=
                   if video_id.truthy
                   then some ("https://www.youtube.com/watch?v=" ++ video_id.fstrVal)
                   else none,
                 timestamp := publishedAtTimestamp (jGet s "publishedAt" (.str "")) }

/-- `WatchHistoryItem.__init__`; `none` models the constructor raising. -/
def mkWatchHistoryItem (data : Json) : Option WatchHistoryItem :=
  match data with
  | .obj kvs =>
    match jGet kvs "snippet" (.obj []) with
    | .obj s => mkWatchHistoryItemFields kvs s
    | _ => none                 -- `.get` on a non-dict snippet raises
  | _ => none

/-- `item['snippet'].get('type', '')` — the per-item prefix of the API
ingestion loop that runs OUTSIDE the per-item `try`; `none` models an
exception there, which propagates to the outer handler and turns the whole
call's result into `[]`. -/
def activityTypeOf (item : Json) : Option Json :=
  match item with
  | .obj kvs =>
    (match jLookup "snippet" kvs with
     | some (.obj s) => some (jGet s "type" (.str ""))
     | some _ => none            -- snippet is not a dict: `.get` raises
     | none => none)             -- KeyError
  | _ => none                    -- subscripting a non-dict raises

/-- `activity_type in ['upload', 'playlistItem', 'recommendation']`. -/
def isAllowedActivityType : Json → Bool
  | .str s => s = "upload" || s = "playlistItem" || s = "recommendation"
  | _ => false

/-- The filtering loop of `HistoryRetriever.get_watch_history`; `none`
propagates an exception raised outside the per-item `try`. -/
def goActivities : List Json → Option (List WatchHistoryItem)
  | [] => some []
  | item :: rest =>
    match activityTypeOf item with
    | none => none
    | some ty =>
      if isAllowedActivityType ty then
        match mkWatchHistoryItem item with
        | none => goActivities rest       -- inner except: warn and continue
        | some it =>
          if it.video_id.truthy then
            match goActivities rest with
            | none => none
            | some l => some (it :: l)
          else goActivities rest
      else goActivities rest

/-- `HistoryRetriever.get_watch_history`, applied to the list of activity
items the API response carries.  The enclosing try/except returns `[]` on
any exception (including ones thrown mid-loop, discarding earlier items). -/
def get_watch_history (items : List Json) : List WatchHistoryItem :=
  match goActivities items with
  | some l => l
  | none => []

/-- `HistoryRetriever.search_history` (collection passed explicitly;
`history=None` reads the cache slot).  Searches title, channel AND
description. -/
def search_history_api (query : String)
    (history : List WatchHistoryItem) : List WatchHistoryItem :=
  if history.isEmpty then []
  else
    let ql := pyLower query
    history.filter fun item =>
      pyInStr ql (pyLower item.title) || pyInStr ql (pyLower item.channel_title)
        || pyInStr ql (pyLower item.description)

/-- The dictionary produced by `WatchHistoryItem.to_dict`. -/
structure ApiExportDict where
  title : String
  channel : String
  video_id : Json
  video_url : Option String
  published_at : Json
  timestamp : Option String
  activity_type : Json
  description : String
deriving Repr

/-- `WatchHistoryItem.to_dict`: the description is truncated to 200
characters plus `'...'` at this boundary only; the stored record is not
changed (the method only reads `self`). -/
def WatchHistoryItem.to_dict (it : WatchHistoryItem) : ApiExportDict :=
  { title := it.title, channel := it.channel_title, video_id := it.video_id,
    video_url := it.video_url, published_at := it.published_at,
    timestamp := it.timestamp.map PyDateTime.isoformat,
    activity_type := it.activity_type,
    description :=
      if 200 < it.description.length
      then String.mk (it.description.toList.take 200) ++ "..."
      else it.description }


/-! ## Support lemmas -/

theorem truthy_ne_null_ne_empty (j : Json) (h : j.truthy) :
    j ≠ Json.null ∧ j ≠ Json.str "" := by
  constructor <;> rintro rfl <;> exact absurd h (by decide)

/-- Every item retained by one step of the Takeout batch loop passed the
`if item.video_id:` truthiness guard. -/
theorem entryStep_video_id (e : Json) (item : TakeoutWatchHistoryItem)
    (h : entryStep e = some item) : ∃ s, item.video_id = some s ∧ s ≠ "" := by
  cases e with
  | obj kvs =>
    simp only [entryStep] at h
    repeat' split at h
    all_goals simp at h
    subst h
    rename_i s heq hne
    refine ⟨s, heq, fun hcon => hne ?_⟩
    subst hcon
    rfl
  | null => exact absurd h (by simp [entryStep])
  | bool b => exact absurd h (by simp [entryStep])
  | num n => exact absurd h (by simp [entryStep])
  | str s => exact absurd h (by simp [entryStep])
  | arr xs => exact absurd h (by simp [entryStep])

theorem processEntries_video_id (es : List Json) :
    ∀ r ∈ (processEntries es).1, ∃ s, r.video_id = some s ∧ s ≠ "" := by
  induction es with
  | nil => simp [processEntries]
  | cons e rest ih =>
    intro r hr
    simp only [processEntries] at hr
    cases hstep : entryStep e with
    | some item =>
      rw [hstep] at hr
      simp only at hr
      rcases List.mem_cons.mp hr with rfl | hr'
      · exact entryStep_video_id e r hstep
      · exact ih r hr'
    | none =>
      rw [hstep] at hr
      exact ih r hr

theorem processEntries_count (es : List Json) :
    (processEntries es).1.length + (processEntries es).2 = es.length := by
  induction es with
  | nil => simp [processEntries]
  | cons e rest ih =>
    simp only [processEntries]
    cases hstep : entryStep e <;> simp [List.length_cons] <;> omega

theorem goActivities_video_id (items : List Json) :
    ∀ (l : List WatchHistoryItem), goActivities items = some l →
      ∀ r ∈ l, r.video_id.truthy := by
  induction items with
  | nil =>
    intro l h r hr
    simp only [goActivities, Option.some.injEq] at h
    subst h
    simp at hr
  | cons item rest ih =>
    intro l h r hr
    simp only [goActivities] at h
    cases hA : activityTypeOf item with
    | none => rw [hA] at h; exact absurd h (by simp)
    | some ty =>
      rw [hA] at h
      simp only at h
      by_cases hty : isAllowedActivityType ty
      · rw [if_pos hty] at h
        cases hmk : mkWatchHistoryItem item with
        | none => rw [hmk] at h; exact ih l h r hr
        | some it =>
          rw [hmk] at h
          simp only at h
          by_cases htr : it.video_id.truthy
          · rw [if_pos htr] at h
            cases hgo : goActivities rest with
            | none => rw [hgo] at h; exact absurd h (by simp)
            | some l' =>
              rw [hgo] at h
              simp only [Option.some.injEq] at h
              subst h
              rcases List.mem_cons.mp hr with rfl | hr'
              · exact htr
              · exact ih l' hgo r hr'
          · rw [if_neg htr] at h
            exact ih l h r hr
      · rw [if_neg hty] at h
        exact ih l h r hr

/-- Inversion for successful Takeout loads: the result is always a stably
sorted batch-loop output (over the document's entries, or over its
keys/characters for object/string documents). -/
theorem load_ok_inv (file : TakeoutFile) (items : List TakeoutWatchHistoryItem)
    (skipped : Nat) (h : load_watch_history file = .ok (items, skipped)) :
    ∃ es : List Json, items = pyStableSort takeoutSortLe (processEntries es).1 ∧
      skipped = (processEntries es).2 := by
  cases file with
  | missing => simp [load_watch_history] at h
  | invalidJson => simp [load_watch_history] at h
  | parsed data =>
    cases data with
    | arr entries =>
      simp only [load_watch_history, Except.ok.injEq, Prod.mk.injEq] at h
      exact ⟨entries, h.1.symm, h.2.symm⟩
    | obj kvs =>
      simp only [load_watch_history, Except.ok.injEq, Prod.mk.injEq] at h
      exact ⟨kvs.map fun kv => .str kv.1, h.1.symm, h.2.symm⟩
    | str s =>
      simp only [load_watch_history, Except.ok.injEq, Prod.mk.injEq] at h
      exact ⟨s.toList.map fun c => .str (String.mk [c]), h.1.symm, h.2.symm⟩
    | null => simp [load_watch_history] at h
    | bool b => simp [load_watch_history] at h
    | num n => simp [load_watch_history] at h

/-! Concrete witness data: one well-formed Takeout entry and the record the
loader builds from it. -/

def witEntry : Json :=
  .obj [("title", .str "Watched A"),
        ("titleUrl", .str "https://www.youtube.com/watch?v=AAAAAAAAAAA")]

def witItem : TakeoutWatchHistoryItem :=
  { title := "A",
    title_url := .str "https://www.youtube.com/watch?v=AAAAAAAAAAA",
    subtitles := .arr [],
    time := .str "",
    video_id := some "AAAAAAAAAAA",
    video_url := .str "https://www.youtube.com/watch?v=AAAAAAAAAAA",
    channel_title := "Unknown Channel",
    timestamp := none,
    description := "",
    activity_type := "watch",
    published_at := .str "" }

/-! ## Claim theorems -/

/-- C1: Drop invariant — for every batch passed to either ingestion entry
point (API activity ingestion or Takeout file ingestion), every record in
the resulting collection has a non-null, non-empty video id; entries
without an extractable video id are never stored. -/
theorem drop_invariant :
    (∀ (items : List Json), ∀ r ∈ get_watch_history items,
        r.video_id ≠ Json.null ∧ r.video_id ≠ Json.str "") ∧
    (∀ (file : TakeoutFile) (items : List TakeoutWatchHistoryItem) (skipped : Nat),
        load_watch_history file = .ok (items, skipped) →
        ∀ r ∈ items, r.video_id ≠ none ∧ r.video_id ≠ some "") := by
  constructor
  · intro items r hr
    unfold get_watch_history at hr
    cases hgo : goActivities items with
    | none => rw [hgo] at hr; simp at hr
    | some l =>
      rw [hgo] at hr
      exact truthy_ne_null_ne_empty _ (goActivities_video_id items l hgo r hr)
  · intro file items skipped h r hr
    obtain ⟨es, h1, _⟩ := load_ok_inv file items skipped h
    subst h1
    obtain ⟨s, hs, hne⟩ :=
      processEntries_video_id es r ((mem_pyStableSort _ _ r).mp hr)
    constructor
    · rw [hs]; simp
    · rw [hs]
      intro hcon
      exact hne (Option.some.inj hcon)

theorem drop_invariant_witness :
    witItem.video_id ≠ none ∧ witItem.video_id ≠ some "" :=
  drop_invariant.2 (.parsed (.arr [witEntry])) [witItem] 0 rfl witItem
    (List.mem_singleton.mpr rfl)

/-- C9: Count conservation — for a Takeout batch whose entries all reach
the per-entry loop (i.e. a JSON array document), the number of retained
records plus the reported skipped count equals the number of raw entries:
each entry is retained or counted skipped, never both, never neither. -/
theorem count_conservation (entries : List Json)
    (items : List TakeoutWatchHistoryItem) (skipped : Nat)
    (h : load_watch_history (.parsed (.arr entries)) = .ok (items, skipped)) :
    items.length + skipped = entries.length := by
  simp only [load_watch_history, Except.ok.injEq, Prod.mk.injEq] at h
  obtain ⟨h1, h2⟩ := h
  subst h1
  subst h2
  rw [length_pyStableSort]
  exact processEntries_count entries

theorem count_conservation_witness :
    ([witItem].length + 0 = [witEntry].length) :=
  count_conservation [witEntry] [witItem] 0 rfl

/-- C6: Takeout failure boundary — loading raises the file-not-found
condition exactly when the path does not exist, the malformed-input
condition (`ValueError`) exactly when the contents are not valid JSON, and
never raises for the failure of an individual entry: over an array document
the call always succeeds, per-entry failures being counted as skipped. -/
theorem takeout_failure_boundary :
    (∀ file : TakeoutFile,
        load_watch_history file = .error .fileNotFound ↔ file = .missing) ∧
    (∀ file : TakeoutFile,
        load_watch_history file = .error .valueError ↔ file = .invalidJson) ∧
    (∀ entries : List Json, ∃ items skipped,
        load_watch_history (.parsed (.arr entries)) = .ok (items, skipped)) := by
  refine ⟨?_, ?_, ?_⟩
  · intro file
    constructor
    · intro h
      cases file with
      | missing => rfl
      | invalidJson => simp [load_watch_history] at h
      | parsed data => cases data <;> simp [load_watch_history] at h
    · rintro rfl
      rfl
  · intro file
    constructor
    · intro h
      cases file with
      | missing => simp [load_watch_history] at h
      | invalidJson => rfl
      | parsed data => cases data <;> simp [load_watch_history] at h
    · rintro rfl
      rfl
  · intro entries
    exact ⟨_, _, rfl⟩

theorem takeout_failure_boundary_witness :
    load_watch_history .missing = Except.error .fileNotFound ∧
    load_watch_history .invalidJson = Except.error .valueError :=
  ⟨(takeout_failure_boundary.1 .missing).mpr rfl,
   (takeout_failure_boundary.2.1 .invalidJson).mpr rfl⟩

/-! ## C2: Takeout ordering -/

/-- A Takeout entry whose `time` field parses, via the date-only fallback,
to `datetime.min` (`"Jan 1, 0001"` → 0001-01-01 00:00:00). -/
def minTsEntry : Json :=
  .obj [("title", .str "Watched B"),
        ("titleUrl", .str "https://www.youtube.com/watch?v=BBBBBBBBBBB"),
        ("time", .str "Jan 1, 0001")]

/-- The record the loader builds from `minTsEntry`. -/
def minTsItem : TakeoutWatchHistoryItem :=
  { title := "B",
    title_url := .str "https://www.youtube.com/watch?v=BBBBBBBBBBB",
    subtitles := .arr [],
    time := .str "Jan 1, 0001",
    video_id := some "BBBBBBBBBBB",
    video_url := .str "https://www.youtube.com/watch?v=BBBBBBBBBBB",
    channel_title := "Unknown Channel",
    timestamp := some datetimeMin,
    description := "",
    activity_type := "watch",
    published_at := .str "Jan 1, 0001" }

/-- The timestamp column of a successful load. -/
def loadedTimestamps (file : TakeoutFile) : Option (List (Option PyDateTime)) :=
  match load_watch_history file with
  | .ok (items, _) => some (items.map fun r => r.timestamp)
  | .error _ => none

/-- C2 counterexample: a batch of two retained entries — first one with no
`time` (timestamp `None`), then one whose `time` `"Jan 1, 0001"` parses to
`datetime.min`.  Both sort keys equal `datetime.min`, so the stable
descending sort keeps input order and the null-timestamp record appears
BEFORE the non-null one, refuting "every record with a null timestamp
appears after all records with a non-null timestamp". -/
theorem takeout_ordering_cex :
    loadedTimestamps (.parsed (.arr [witEntry, minTsEntry]))
      = some [none, some datetimeMin] := by rfl

/-- C2 (amended): every successful Takeout load is sorted descending by the
key `timestamp or datetime.min` (stable, so ties keep input order); after
any record with a null timestamp, every later record's key is `≤`
`datetime.min` — records with a timestamp strictly newer than
`datetime.min` all come earlier.  (The original claim fails only when a
parsed timestamp equals `datetime.min` and ties with a null one.) -/
theorem takeout_ordering :
    ∀ (file : TakeoutFile) (items : List TakeoutWatchHistoryItem) (skipped : Nat),
      load_watch_history file = .ok (items, skipped) →
      items.Pairwise (fun a b => takeoutSortLe a b) ∧
      (∀ (i j : Nat) (hi : i < items.length) (hj : j < items.length), i < j →
        (items.get ⟨i, hi⟩).timestamp = none →
        dtLe (takeoutSortKey (items.get ⟨j, hj⟩)) datetimeMin) := by
  intro file items skipped h
  obtain ⟨es, h1, _⟩ := load_ok_inv file items skipped h
  subst h1
  have htrans : ∀ a b c, takeoutSortLe a b → takeoutSortLe b c → takeoutSortLe a c :=
    fun a b c hab hbc => dtLe_trans _ _ _ hbc hab
  have htot : ∀ a b, takeoutSortLe a b || takeoutSortLe b a :=
    fun a b => dtLe_total _ _
  have hp := pairwise_pyStableSort takeoutSortLe htrans htot (processEntries es).1
  refine ⟨hp, ?_⟩
  intro i j hi hj hij hnone
  have hrel := List.pairwise_iff_get.mp hp ⟨i, hi⟩ ⟨j, hj⟩ (Fin.mk_lt_mk.mpr hij)
  simp only [takeoutSortLe] at hrel
  have hkey : takeoutSortKey ((pyStableSort takeoutSortLe (processEntries es).1).get
      ⟨i, hi⟩) = datetimeMin := by
    unfold takeoutSortKey
    rw [hnone]
    rfl
  rw [hkey] at hrel
  exact hrel

theorem takeout_ordering_witness :
    ([witItem, minTsItem].Pairwise (fun a b => takeoutSortLe a b)) ∧
    (∀ (i j : Nat) (hi : i < ([witItem, minTsItem]).length)
        (hj : j < ([witItem, minTsItem]).length), i < j →
        (([witItem, minTsItem]).get ⟨i, hi⟩).timestamp = none →
        dtLe (takeoutSortKey (([witItem, minTsItem]).get ⟨j, hj⟩)) datetimeMin) :=
  takeout_ordering (.parsed (.arr [witEntry, minTsEntry])) [witItem, minTsItem] 0 rfl

/-! ## C3: timestamp parser contract -/

/-- C3 counterexample: the claim says the timestamp parsing used by *each*
adapter accepts, among the known shapes, ISO-8601 with a literal `Z`
suffix.  The Takeout adapter's parser rejects exactly that shape (only the
API adapter normalizes `Z`): on `"2023-12-15T15:45:23Z"` the Takeout parser
returns `None` (the trailing `Z` is not stripped — the tz-strip regex
requires whitespace — and `"%Y-%m-%dT%H:%M:%S"` leaves the `Z`
unconverted), while the same string is parseable under the ISO rule, as the
API parser shows. -/
theorem timestamp_parser_cex :
    parse_timestamp_takeout "2023-12-15T15:45:23Z" = none ∧
    parse_timestamp_api "2023-12-15T15:45:23Z"
      = some ⟨2023, 12, 15, 15, 45, 23, some 0⟩ := by
  constructor <;> rfl

/-- C3 (amended): each adapter's timestamp parsing is a total function into
an optional instant (failure is a value — every exception is caught inside
the method).  The API adapter's parser is exactly `fromisoformat` after
normalizing every literal `Z` to `+00:00`.  The Takeout adapter's parser
strips a trailing 3–4 letter timezone abbreviation and tries its four
strptime shapes in order with first match winning, then falls back to
parsing a bare `"<Mon> <D>, <YYYY>"` substring as midnight.  Concrete
members of each accepted shape parse as stated; unparseable input yields
`None`. -/
theorem timestamp_parser_contract :
    (∀ (s : String) (d : PyDateTime),
        strptimeLongAmPm (stripTzSuffix s.toList) = some d →
        parse_timestamp_takeout s = some d) ∧
    (∀ (s : String) (d : PyDateTime),
        strptimeLongAmPm (stripTzSuffix s.toList) = none →
        strptimeLong24 (stripTzSuffix s.toList) = some d →
        parse_timestamp_takeout s = some d) ∧
    (∀ (s : String) (d : PyDateTime),
        strptimeLongAmPm (stripTzSuffix s.toList) = none →
        strptimeLong24 (stripTzSuffix s.toList) = none →
        strptimeYmdSpace (stripTzSuffix s.toList) = some d →
        parse_timestamp_takeout s = some d) ∧
    (∀ (s : String) (d : PyDateTime),
        strptimeLongAmPm (stripTzSuffix s.toList) = none →
        strptimeLong24 (stripTzSuffix s.toList) = none →
        strptimeYmdSpace (stripTzSuffix s.toList) = none →
        strptimeYmdT (stripTzSuffix s.toList) = some d →
        parse_timestamp_takeout s = some d) ∧
    (∀ s : String,
        strptimeLongAmPm (stripTzSuffix s.toList) = none →
        strptimeLong24 (stripTzSuffix s.toList) = none →
        strptimeYmdSpace (stripTzSuffix s.toList) = none →
        strptimeYmdT (stripTzSuffix s.toList) = none →
        parse_timestamp_takeout s = (dateSearch s.toList).bind strptimeDateOnly) ∧
    (∀ s : String, parse_timestamp_api s = fromisoformat (replaceZ s.toList)) ∧
    (parse_timestamp_api "2023-12-15T15:45:23Z"
        = some ⟨2023, 12, 15, 15, 45, 23, some 0⟩ ∧
     parse_timestamp_takeout "Dec 15, 2023, 3:45:23 PM PST"
        = some ⟨2023, 12, 15, 15, 45, 23, none⟩ ∧
     parse_timestamp_takeout "Dec 15, 2023, 15:45:23"
        = some ⟨2023, 12, 15, 15, 45, 23, none⟩ ∧
     parse_timestamp_takeout "2023-12-15 15:45:23"
        = some ⟨2023, 12, 15, 15, 45, 23, none⟩ ∧
     parse_timestamp_takeout "2023-12-15T15:45:23"
        = some ⟨2023, 12, 15, 15, 45, 23, none⟩ ∧
     parse_timestamp_takeout "Dec 15, 2023" = some ⟨2023, 12, 15, 0, 0, 0, none⟩ ∧
     parse_timestamp_takeout "not a timestamp" = none ∧
     parse_timestamp_api "not a timestamp" = none) := by
  refine ⟨?_, ?_, ?_, ?_, ?_, ?_, ?_⟩
  · intro s d h1
    by_cases hl : s.toList = []
    · rw [hl] at h1
      exact Option.noConfusion (h1 : (none : Option PyDateTime) = some d)
    · unfold parse_timestamp_takeout
      rw [if_neg (by simpa using hl)]
      rw [h1]
      rfl
  · intro s d h1 h2
    by_cases hl : s.toList = []
    · rw [hl] at h2
      exact Option.noConfusion (h2 : (none : Option PyDateTime) = some d)
    · unfold parse_timestamp_takeout
      rw [if_neg (by simpa using hl)]
      rw [h1, h2]
      rfl
  · intro s d h1 h2 h3
    by_cases hl : s.toList = []
    · rw [hl] at h3
      exact Option.noConfusion (h3 : (none : Option PyDateTime) = some d)
    · unfold parse_timestamp_takeout
      rw [if_neg (by simpa using hl)]
      rw [h1, h2, h3]
      rfl
  · intro s d h1 h2 h3 h4
    by_cases hl : s.toList = []
    · rw [hl] at h4
      exact Option.noConfusion (h4 : (none : Option PyDateTime) = some d)
    · unfold parse_timestamp_takeout
      rw [if_neg (by simpa using hl)]
      rw [h1, h2, h3, h4]
      rfl
  · intro s h1 h2 h3 h4
    by_cases hl : s.toList = []
    · unfold parse_timestamp_takeout
      rw [hl]
      rfl
    · unfold parse_timestamp_takeout
      rw [if_neg (by simpa using hl)]
      rw [h1, h2, h3, h4]
      rfl
  · intro s
    unfold parse_timestamp_api
    by_cases hl : s.toList = []
    · rw [hl]
      rfl
    · rw [if_neg (by simpa using hl)]
  · exact ⟨rfl, rfl, rfl, rfl, rfl, rfl, rfl, rfl⟩

theorem timestamp_parser_contract_witness :
    parse_timestamp_takeout "Dec 15, 2023, 3:45:23 PM"
      = some ⟨2023, 12, 15, 15, 45, 23, none⟩ :=
  timestamp_parser_contract.1 "Dec 15, 2023, 3:45:23 PM"
    ⟨2023, 12, 15, 15, 45, 23, none⟩ rfl

/-! ## C4: video-id extractor -/

theorem orElse_cases (a : Option α) (f : Unit → Option α) (s : α)
    (h : a.orElse f = some s) : a = some s ∨ (a = none ∧ f () = some s) := by
  cases a with
  | none => exact Or.inr ⟨rfl, h⟩
  | some x => exact Or.inl h

theorem take11Id_spec (l : List Char) (s : String) (h : take11Id l = some s) :
    s.length = 11 ∧ s.data.all isIdChar := by
  unfold take11Id at h
  split at h
  · next hc =>
    cases h
    exact ⟨hc.1, hc.2⟩
  · exact Option.noConfusion h

theorem regexSearch_some (p : List Char → Option String) (l : List Char) (s : String)
    (h : regexSearch p l = some s) : ∃ l', p l' = some s := by
  induction l with
  | nil => exact Option.noConfusion h
  | cons c t ih =>
    rcases orElse_cases _ _ _ h with h' | ⟨_, h'⟩
    · exact ⟨c :: t, h'⟩
    · exact ih h'

theorem pat1At_spec (l : List Char) (s : String) (h : pat1At l = some s) :
    ∃ l', take11Id l' = some s := by
  unfold pat1At at h
  rcases orElse_cases _ _ _ h with h' | ⟨_, h'⟩ <;>
    [cases hd : dropLit "youtube.com/watch?v=".toList l;
     cases hd : dropLit "youtu.be/".toList l] <;>
    rw [hd] at h'
  · exact Option.noConfusion h'
  · exact ⟨_, h'⟩
  · exact Option.noConfusion h'
  · exact ⟨_, h'⟩

theorem pat2At_spec (l : List Char) (s : String) (h : pat2At l = some s) :
    ∃ l', take11Id l' = some s := by
  unfold pat2At at h
  cases hd : dropLit "youtube.com/embed/".toList l <;> rw [hd] at h
  · exact Option.noConfusion h
  · exact ⟨_, h⟩

theorem pat3At_spec (l : List Char) (s : String) (h : pat3At l = some s) :
    ∃ l', take11Id l' = some s := by
  unfold pat3At at h
  cases hd : dropLit "youtube.com/v/".toList l <;> rw [hd] at h
  · exact Option.noConfusion h
  · exact ⟨_, h⟩

/-- C4 counterexample: the claim says extraction returns an 11-character id
(alphanumeric/`-`/`_`) or the absent value.  The query-string fallback
returns the raw first `v` parameter of the query, whatever its length: on
`".../watch?v=abc"` — where the regexes fail for lack of 11 id characters —
it returns `"abc"`, a 3-character id. -/
theorem video_id_cex :
    extract_video_id "https://www.youtube.com/watch?v=abc" = some "abc" ∧
    ¬("abc" : String).length = 11 := by
  exact ⟨rfl, by decide⟩

/-- C4 (amended): extraction is a total function (any `urlparse` failure is
swallowed by the bare `except` and yields the absent value); it tries the
`watch?v=`/`youtu.be` pattern, then `/embed/`, then `/v/`, then the
query-string fallback, first success winning; every regex-produced id is
exactly 11 characters from `[a-zA-Z0-9_-]`, while the fallback returns the
raw first `v` query parameter (not length-checked); the empty url yields
the absent value. -/
theorem video_id_extractor :
    (∀ (url id : String),
        regexSearch pat1At url.toList = some id → extract_video_id url = some id) ∧
    (∀ (url id : String),
        regexSearch pat1At url.toList = none →
        regexSearch pat2At url.toList = some id → extract_video_id url = some id) ∧
    (∀ (url id : String),
        regexSearch pat1At url.toList = none →
        regexSearch pat2At url.toList = none →
        regexSearch pat3At url.toList = some id → extract_video_id url = some id) ∧
    (∀ url : String, url.toList ≠ [] →
        regexSearch pat1At url.toList = none →
        regexSearch pat2At url.toList = none →
        regexSearch pat3At url.toList = none →
        extract_video_id url = queryFallback url.toList) ∧
    (extract_video_id "" = none) ∧
    (∀ (url id : String), extract_video_id url = some id →
        (id.length = 11 ∧ id.data.all isIdChar) ∨ queryFallback url.toList = some id) := by
  refine ⟨?_, ?_, ?_, ?_, rfl, ?_⟩
  · intro url id h1
    by_cases hl : url.toList = []
    · rw [hl] at h1
      exact Option.noConfusion (h1 : (none : Option String) = some id)
    · unfold extract_video_id
      rw [if_neg (by simpa using hl)]
      rw [h1]
      rfl
  · intro url id h1 h2
    by_cases hl : url.toList = []
    · rw [hl] at h2
      exact Option.noConfusion (h2 : (none : Option String) = some id)
    · unfold extract_video_id
      rw [if_neg (by simpa using hl)]
      rw [h1, h2]
      rfl
  · intro url id h1 h2 h3
    by_cases hl : url.toList = []
    · rw [hl] at h3
      exact Option.noConfusion (h3 : (none : Option String) = some id)
    · unfold extract_video_id
      rw [if_neg (by simpa using hl)]
      rw [h1, h2, h3]
      rfl
  · intro url hl h1 h2 h3
    unfold extract_video_id
    rw [if_neg (by simpa using hl)]
    rw [h1, h2, h3]
    rfl
  · intro url id h
    unfold extract_video_id at h
    split at h
    · exact Option.noConfusion h
    · rcases orElse_cases _ _ _ h with h' | ⟨_, h'⟩
      · rcases orElse_cases _ _ _ h' with h'' | ⟨_, h''⟩
        · rcases orElse_cases _ _ _ h'' with h3 | ⟨_, h3⟩
          · obtain ⟨l1, hp⟩ := regexSearch_some _ _ _ h3
            obtain ⟨l2, ht⟩ := pat1At_spec _ _ hp
            exact Or.inl (take11Id_spec _ _ ht)
          · obtain ⟨l1, hp⟩ := regexSearch_some _ _ _ h3
            obtain ⟨l2, ht⟩ := pat2At_spec _ _ hp
            exact Or.inl (take11Id_spec _ _ ht)
        · obtain ⟨l1, hp⟩ := regexSearch_some _ _ _ h''
          obtain ⟨l2, ht⟩ := pat3At_spec _ _ hp
          exact Or.inl (take11Id_spec _ _ ht)
      · exact Or.inr h'

theorem video_id_extractor_witness :
    extract_video_id "https://youtu.be/dQw4w9WgXcQ" = some "dQw4w9WgXcQ" :=
  video_id_extractor.1 "https://youtu.be/dQw4w9WgXcQ" "dQw4w9WgXcQ" rfl

/-! ## C5: title defaulting and the `Watched ` prefix -/

theorem mkTakeoutItemFields_title (kvs : List (String × Json)) (item : TakeoutWatchHistoryItem)
    (h : mkTakeoutItemFields kvs = some item) :
    ∃ t, getStr? (jGet kvs "title" (.str "Unknown Title")) = some t ∧
      item.title = (if "Watched ".toList.isPrefixOf t.toList
                    then String.mk (t.toList.drop 8) else t) := by
  unfold mkTakeoutItemFields at h
  cases ht : getStr? (jGet kvs "title" (.str "Unknown Title")) with
  | none => rw [ht] at h; exact Option.noConfusion h
  | some t =>
    rw [ht] at h
    cases hv : urlFieldVideoId (jGet kvs "titleUrl" (.str "")) with
    | none => rw [hv] at h; exact Option.noConfusion h
    | some vid =>
      rw [hv] at h
      cases hc : extract_channel_name (jGet kvs "subtitles" (.arr [])) with
      | none => rw [hc] at h; exact Option.noConfusion h
      | some ch =>
        rw [hc] at h
        refine ⟨t, rfl, ?_⟩
        cases h
        rfl

theorem mkWatchHistoryItemFields_title (kvs s : List (String × Json)) (item : WatchHistoryItem)
    (h : mkWatchHistoryItemFields kvs s = some item) :
    ∃ t, getStr? (jGet s "title" (.str "Unknown Title")) = some t ∧ item.title = t := by
  unfold mkWatchHistoryItemFields at h
  cases ht : getStr? (jGet s "title" (.str "Unknown Title")) with
  | none => rw [ht] at h; exact Option.noConfusion h
  | some t =>
    rw [ht] at h
    cases hc : getStr? (jGet s "channelTitle" (.str "Unknown Channel")) with
    | none => rw [hc] at h; exact Option.noConfusion h
    | some c =>
      rw [hc] at h
      cases hd : getStr? (jGet s "description" (.str "")) with
      | none => rw [hd] at h; exact Option.noConfusion h
      | some d =>
        rw [hd] at h
        cases hv : apiVideoId (jGet kvs "contentDetails" (.obj [])) with
        | none => rw [hv] at h; exact Option.noConfusion h
        | some vid =>
          rw [hv] at h
          refine ⟨t, rfl, ?_⟩
          cases h
          rfl

/-- A Takeout entry whose title is exactly `"Watched "`: truthy, so it
passes the batch loop's title check; the prefix strip then leaves an empty
title on the retained record. -/
def watchedOnlyEntry : Json :=
  .obj [("title", .str "Watched "),
        ("titleUrl", .str "https://www.youtube.com/watch?v=dQw4w9WgXcQ")]

/-- The title column of a successful load. -/
def loadedTitles (file : TakeoutFile) : Option (List String) :=
  match load_watch_history file with
  | .ok (items, _) => some (items.map fun r => r.title)
  | .error _ => none

/-- C5 counterexample: Takeout ingestion of an entry titled `"Watched "`
(with a valid video url) retains a record whose `title` is the EMPTY
string — the claim's "the resulting title field is a non-empty string" is
false.  (`"Unknown Title"` is substituted only when the key is absent, and
the 8-character prefix strip of `"Watched "` leaves `""`.) -/
theorem title_nonempty_cex :
    loadedTitles (.parsed (.arr [watchedOnlyEntry])) = some [""] := by rfl

/-- C5 (amended): for records built by either adapter, the title is the
source title with the 8-character `"Watched "` prefix stripped (Takeout) or
taken verbatim (API), and defaults to `"Unknown Title"` exactly when the
source omits the key; the result is non-empty provided the source title is
not the empty string and (Takeout) not exactly `"Watched "`. -/
theorem title_default :
    (∀ (kvs : List (String × Json)) (item : TakeoutWatchHistoryItem) (t : String),
        mkTakeoutItem (.obj kvs) = some item →
        jLookup "title" kvs = some (.str t) →
        item.title = (if "Watched ".toList.isPrefixOf t.toList
                      then String.mk (t.toList.drop 8) else t)) ∧
    (∀ (kvs : List (String × Json)) (item : TakeoutWatchHistoryItem),
        mkTakeoutItem (.obj kvs) = some item →
        jLookup "title" kvs = none → item.title = "Unknown Title") ∧
    (∀ (kvs : List (String × Json)) (item : TakeoutWatchHistoryItem) (t : String),
        mkTakeoutItem (.obj kvs) = some item →
        jLookup "title" kvs = some (.str t) →
        t ≠ "" → t ≠ "Watched " → item.title ≠ "") ∧
    (∀ (kvs sn : List (String × Json)) (item : WatchHistoryItem) (t : String),
        mkWatchHistoryItem (.obj kvs) = some item →
        jGet kvs "snippet" (.obj []) = .obj sn →
        jLookup "title" sn = some (.str t) →
        item.title = t ∧ (t ≠ "" → item.title ≠ "")) ∧
    (∀ (kvs sn : List (String × Json)) (item : WatchHistoryItem),
        mkWatchHistoryItem (.obj kvs) = some item →
        jGet kvs "snippet" (.obj []) = .obj sn →
        jLookup "title" sn = none → item.title = "Unknown Title") := by
  have takeoutTitle : ∀ (kvs : List (String × Json)) (item : TakeoutWatchHistoryItem)
      (t : String), mkTakeoutItem (.obj kvs) = some item →
      jLookup "title" kvs = some (.str t) →
      item.title = (if "Watched ".toList.isPrefixOf t.toList
                    then String.mk (t.toList.drop 8) else t) := by
    intro kvs item t h hlook
    obtain ⟨t', ht', htitle⟩ :=
      mkTakeoutItemFields_title kvs item (h : mkTakeoutItemFields kvs = some item)
    rw [jGet, hlook] at ht'
    simp only [Option.getD_some, getStr?, Option.some.injEq] at ht'
    subst ht'
    exact htitle
  have apiTitle : ∀ (kvs sn : List (String × Json)) (item : WatchHistoryItem) (t : String),
      mkWatchHistoryItem (.obj kvs) = some item →
      jGet kvs "snippet" (.obj []) = .obj sn →
      jLookup "title" sn = some (.str t) → item.title = t := by
    intro kvs sn item t h hs hlook
    simp only [mkWatchHistoryItem] at h
    rw [hs] at h
    obtain ⟨t', ht', htitle⟩ :=
      mkWatchHistoryItemFields_title kvs sn item
        (h : mkWatchHistoryItemFields kvs sn = some item)
    rw [jGet, hlook] at ht'
    simp only [Option.getD_some, getStr?, Option.some.injEq] at ht'
    subst ht'
    exact htitle
  refine ⟨takeoutTitle, ?_, ?_, ?_, ?_⟩
  · intro kvs item h hlook
    obtain ⟨t', ht', htitle⟩ :=
      mkTakeoutItemFields_title kvs item (h : mkTakeoutItemFields kvs = some item)
    rw [jGet, hlook] at ht'
    simp only [Option.getD_none, getStr?, Option.some.injEq] at ht'
    subst ht'
    rw [htitle, if_neg (by decide)]
  · intro kvs item t h hlook hne hnw
    rw [takeoutTitle kvs item t h hlook]
    by_cases hpre : "Watched ".toList.isPrefixOf t.toList
    · rw [if_pos hpre]
      obtain ⟨rest, hrest⟩ := List.isPrefixOf_iff_prefix.mp hpre
      intro hcon
      have hdata : t.toList.drop 8 = [] := congrArg String.data hcon
      rw [← hrest, List.drop_left' (by decide)] at hdata
      subst hdata
      apply hnw
      have h2 : t.data = "Watched ".data := by
        have := hrest
        simpa using this.symm
      calc t = String.mk t.data := rfl
        _ = String.mk "Watched ".data := by rw [h2]
        _ = "Watched " := rfl
    · rw [if_neg hpre]
      exact hne
  · intro kvs sn item t h hs hlook
    refine ⟨apiTitle kvs sn item t h hs hlook, fun hne => ?_⟩
    rw [apiTitle kvs sn item t h hs hlook]
    exact hne
  · intro kvs sn item h hs hlook
    simp only [mkWatchHistoryItem] at h
    rw [hs] at h
    obtain ⟨t', ht', htitle⟩ :=
      mkWatchHistoryItemFields_title kvs sn item
        (h : mkWatchHistoryItemFields kvs sn = some item)
    rw [jGet, hlook] at ht'
    simp only [Option.getD_none, getStr?, Option.some.injEq] at ht'
    subst ht'
    exact htitle

theorem title_default_witness :
    witItem.title = (if "Watched ".toList.isPrefixOf ("Watched A" : String).toList
                     then String.mk (("Watched A" : String).toList.drop 8)
                     else "Watched A") :=
  title_default.1 [("title", .str "Watched A"),
      ("titleUrl", .str "https://www.youtube.com/watch?v=AAAAAAAAAAA")]
    witItem "Watched A" rfl rfl

/-! ## C7: search semantics -/

/-- C7: search returns exactly the records whose `title`, `channelTitle`,
or — API variant only — `description` contains the query case-insensitively,
as an order-preserving subsequence of the collection; an empty stored
history yields `[]` rather than an error. -/
theorem search_semantics :
    (∀ (q : String) (h : List WatchHistoryItem) (r : WatchHistoryItem),
        r ∈ search_history_api q h ↔
          r ∈ h ∧ (pyInStr (pyLower q) (pyLower r.title)
            || pyInStr (pyLower q) (pyLower r.channel_title)
            || pyInStr (pyLower q) (pyLower r.description))) ∧
    (∀ (q : String) (h : List WatchHistoryItem),
        List.Sublist (search_history_api q h) h) ∧
    (∀ (q : String) (h : List TakeoutWatchHistoryItem) (r : TakeoutWatchHistoryItem),
        r ∈ search_history_takeout q h ↔
          r ∈ h ∧ (pyInStr (pyLower q) (pyLower r.title)
            || pyInStr (pyLower q) (pyLower r.channel_title))) ∧
    (∀ (q : String) (h : List TakeoutWatchHistoryItem),
        List.Sublist (search_history_takeout q h) h) ∧
    (∀ q : String, search_history_api q [] = [] ∧ search_history_takeout q [] = []) := by
  refine ⟨?_, ?_, ?_, ?_, fun q => ⟨rfl, rfl⟩⟩
  · intro q h r
    cases h with
    | nil => simp [search_history_api]
    | cons x t =>
      unfold search_history_api
      rw [if_neg (by simp)]
      exact List.mem_filter
  · intro q h
    cases h with
    | nil => simp [search_history_api]
    | cons x t =>
      unfold search_history_api
      rw [if_neg (by simp)]
      exact List.filter_sublist _
  · intro q h r
    cases h with
    | nil => simp [search_history_takeout]
    | cons x t =>
      unfold search_history_takeout
      rw [if_neg (by simp)]
      exact List.mem_filter
  · intro q h
    cases h with
    | nil => simp [search_history_takeout]
    | cons x t =>
      unfold search_history_takeout
      rw [if_neg (by simp)]
      exact List.filter_sublist _

/-- The record of the spec's case-insensitivity example. -/
def pyItem : WatchHistoryItem :=
  { title := "Learning python basics",
    published_at := .str "",
    channel_title := "chan",
    description := "",
    activity_type := .str "",
    video_id := .str "dQw4w9WgXcQ",
    video_url := none,
    timestamp := none }

theorem search_semantics_witness :
    pyItem ∈ search_history_api "PYTHON" [pyItem] :=
  (search_semantics.1 "PYTHON" [pyItem] pyItem).mpr
    ⟨List.mem_singleton.mpr rfl, by decide⟩

/-! ## C8: export truncation boundary -/

theorem mkTakeoutItemFields_description (kvs : List (String × Json))
    (item : TakeoutWatchHistoryItem) (h : mkTakeoutItemFields kvs = some item) :
    item.description = "" := by
  unfold mkTakeoutItemFields at h
  cases ht : getStr? (jGet kvs "title" (.str "Unknown Title")) with
  | none => rw [ht] at h; exact Option.noConfusion h
  | some t =>
    rw [ht] at h
    cases hv : urlFieldVideoId (jGet kvs "titleUrl" (.str "")) with
    | none => rw [hv] at h; exact Option.noConfusion h
    | some vid =>
      rw [hv] at h
      cases hc : extract_channel_name (jGet kvs "subtitles" (.arr [])) with
      | none => rw [hc] at h; exact Option.noConfusion h
      | some ch =>
        rw [hc] at h
        cases h
        rfl

/-- C8: the exported dictionary's description equals the stored description
when its length is ≤ 200 characters, and otherwise equals the first 200
characters followed by `"..."` (length 203); `to_dict` only reads the
record, so the stored description is untouched — in particular every
Takeout-built record stores `""` and exports it unchanged (that adapter's
`to_dict` has no truncation branch). -/
theorem export_truncation :
    (∀ it : WatchHistoryItem, it.description.length ≤ 200 →
        (it.to_dict).description = it.description) ∧
    (∀ it : WatchHistoryItem, 200 < it.description.length →
        (it.to_dict).description
            = String.mk (it.description.toList.take 200) ++ "..." ∧
        (it.to_dict).description.length = 203) ∧
    (∀ (data : Json) (it : TakeoutWatchHistoryItem), mkTakeoutItem data = some it →
        it.description = "" ∧ (it.to_dict).description = it.description) := by
  refine ⟨?_, ?_, ?_⟩
  · intro it hlen
    unfold WatchHistoryItem.to_dict
    rw [if_neg (by omega)]
  · intro it hlen
    unfold WatchHistoryItem.to_dict
    rw [if_pos hlen]
    refine ⟨rfl, ?_⟩
    rw [String.length_append, String.length_mk, List.length_take]
    have h1 : it.description.toList.length = it.description.length := rfl
    have h2 : ("..." : String).length = 3 := rfl
    omega
  · intro data it h
    cases data with
    | obj kvs =>
      have hd := mkTakeoutItemFields_description kvs it
        (h : mkTakeoutItemFields kvs = some it)
      exact ⟨hd, rfl⟩
    | null => exact Option.noConfusion h
    | bool b => exact Option.noConfusion h
    | num n => exact Option.noConfusion h
    | str s => exact Option.noConfusion h
    | arr xs => exact Option.noConfusion h

/-- A record holding a 201-character description. -/
def longDescItem : WatchHistoryItem :=
  { title := "t",
    published_at := .str "",
    channel_title := "c",
    description := String.mk (List.replicate 201 'a'),
    activity_type := .str "",
    video_id := .str "dQw4w9WgXcQ",
    video_url := none,
    timestamp := none }

theorem export_truncation_witness :
    (longDescItem.to_dict).description
        = String.mk (longDescItem.description.toList.take 200) ++ "..." ∧
    (longDescItem.to_dict).description.length = 203 :=
  export_truncation.2.1 longDescItem (by
    show 200 < (String.mk (List.replicate 201 'a')).length
    rw [String.length_mk, List.length_replicate]
    omega)

/-! ## C10: empty-query identity -/

theorem listContains_nil (l : List Char) : listContains [] l = true := by
  cases l <;> rfl

theorem pyInStr_empty (x : String) : pyInStr "" x = true :=
  listContains_nil x.toList

/-- C10: with the empty-string query, the core search operation returns a
non-empty collection unchanged, in both variants — the empty string is a
substring of every field. -/
theorem empty_query_identity :
    ∀ (h1 : List WatchHistoryItem) (h2 : List TakeoutWatchHistoryItem),
      h1 ≠ [] → h2 ≠ [] →
      search_history_api "" h1 = h1 ∧ search_history_takeout "" h2 = h2 := by
  intro h1 h2 hne1 hne2
  constructor
  · unfold search_history_api
    rw [if_neg (by simpa using hne1)]
    refine List.filter_eq_self.mpr ?_
    intro a _
    rw [show pyLower "" = "" from rfl]
    simp [pyInStr_empty]
  · unfold search_history_takeout
    rw [if_neg (by simpa using hne2)]
    refine List.filter_eq_self.mpr ?_
    intro a _
    rw [show pyLower "" = "" from rfl]
    simp [pyInStr_empty]

theorem empty_query_identity_witness :
    search_history_api "" [pyItem] = [pyItem] ∧
    search_history_takeout "" [witItem] = [witItem] :=
  empty_query_identity [pyItem] [witItem] (by simp) (by simp)
